import Mathlib

set_option maxRecDepth 200000

/-!
Shallow embedding of the `llhls` Unix-socket URL protocol
(`libavformat/llhlsunix.c`, sentinel-aware variant: `llhlsUnixContext`
with `chunkUri`/`chunkLastbytes`/`data_read`, `findBufStr`,
`llhlsunix_open`, `llhlsunix_read`).

Bytes are modelled as `Nat` (values of C `char`/`uint8_t`); byte strings
as `List Nat`.  The socket is modelled by oracles: `RecvResult` for one
`recv` outcome, and `Int` results for `ff_listen_connect` / `send`.
-/

namespace LLHLSUnix

/-- Capacity of the `chunkLastbytes` buffer: `char chunkLastbytes[1024]`. -/
def CAP : Nat := 1024

/-- The byte codes of a string literal. -/
def strB (s : String) : List Nat := s.data.map Char.toNat

/-- The sentinel macro `kLLHLS_UNIX_MAGIC_ERROR` (braces of the C literal
written here as hex escapes). -/
def kLLHLS_UNIX_MAGIC_ERROR : String := "<<<=== MAGIC_ERROR_STRING \x7bSHOULDNT BE IN TS/MP4\x7d ===>>>"

/-- The sentinel literal as bytes. -/
def magicError : List Nat := strB kLLHLS_UNIX_MAGIC_ERROR

/-- Test `strncmp(p, substr, substr_len) == 0` for a NUL-free `substr`:
the bytes of `pat` are a prefix of `buf`. -/
def bufHasPrefix : List Nat → List Nat → Bool
  | [], _ => true
  | _ :: _, [] => false
  | a :: pat, b :: buf => a == b && bufHasPrefix pat buf

/-- The scanning loop of `findBufStr`: `p` runs over at most `fuel`
successive positions of the buffer (`fuel` = number of positions
`p < pEnd`), returning the index of the first match. -/
def findBufStrGo (pat : List Nat) : Nat → Nat → List Nat → Option Nat
  | _, 0, _ => none
  | _, Nat.succ _, [] => none
  | idx, Nat.succ fuel, b :: rest =>
      if bufHasPrefix pat (b :: rest) then some idx
      else findBufStrGo pat (idx + 1) fuel rest

/-- Model of `static char *findBufStr(char *str, const char *substr, size_t n)`:
scan the `n`-byte buffer for `substr`; positions run while
`p < str + n - (substr_len - 1)`.  Returns the match offset
(`p - str`) instead of the pointer. -/
def findBufStr (buf pat : List Nat) (n : Nat) : Option Nat :=
  if pat.length = 0 then some 0
  else findBufStrGo pat 0 (n + 1 - pat.length) buf

/-- The sentinel check performed on `chunkLastbytes` after each receive:
`findBufStr(s->chunkLastbytes, magicErr, sizeof(s->chunkLastbytes)) != NULL`. -/
def containsMagic (window : List Nat) : Bool :=
  (findBufStr window magicError CAP).isSome

/-- The window update for a receive of `newb` (nonempty):
`lastbytes = FFMIN(ret, 1024)`, `lastoffset = ret > 1024 ? ret - 1024 : 0`,
`memcpy(s->chunkLastbytes, buf + lastoffset, lastbytes)` — the last
`min(ret, 1024)` received bytes overwrite the first `lastbytes` bytes of
the window; the remaining window bytes are left as they were. -/
def windowUpdate (win newb : List Nat) : List Nat :=
  let lastbytes := min newb.length CAP
  let lastoffset := newb.length - CAP
  ((newb.drop lastoffset).take lastbytes) ++ win.drop lastbytes

/-- Outcome of one `recv` call, as classified by the code:
`ret < 0 && ff_neterrno() == AVERROR(EAGAIN)`, other `ret < 0`
(with `ff_neterrno()` value `code`), or `ret >= 0` bytes. -/
inductive RecvResult where
  | wouldBlock : RecvResult
  | err : Int → RecvResult
  | bytes : List Nat → RecvResult
  deriving Repr, DecidableEq

/-- Classified return value of `llhlsunix_read`. -/
inductive ReadResult where
  | WouldBlock : ReadResult
  | HardError : Int → ReadResult
  | SentinelError : ReadResult
  | EndOfStream : ReadResult
  | Data : Nat → ReadResult
  deriving Repr, DecidableEq

/-- The per-handle state mutated by `llhlsunix_read`:
`chunkLastbytes` (always 1024 bytes) and `data_read`. -/
structure ReadState where
  window : List Nat
  data_read : Nat
  deriving Repr, DecidableEq

/-- State after `llhlsunix_open`: `memset(s->chunkLastbytes, 0, 1024)`
and `s->data_read = 0`. -/
def initState : ReadState :=
  { window := List.replicate CAP 0, data_read := 0 }

/-- One call of `llhlsunix_read`, given the `recv` outcome `r`:
EAGAIN and other negative results return before touching the window;
a positive result first overwrites the front of the window with the
last `min(n, 1024)` received bytes; then the whole window is scanned
for the sentinel (`AVERROR_INVALIDDATA` if found); then `ret == 0`
yields `AVERROR_EOF`; otherwise `data_read += ret` and the count is
returned. -/
def llhlsunix_read (s : ReadState) (r : RecvResult) : ReadState × ReadResult :=
  match r with
  | .wouldBlock => (s, .WouldBlock)
  | .err code => (s, .HardError code)
  | .bytes data =>
      let win := if 0 < data.length then windowUpdate s.window data else s.window
      if containsMagic win then
        ({ s with window := win }, .SentinelError)
      else if data.length = 0 then
        ({ s with window := win }, .EndOfStream)
      else
        ({ window := win, data_read := s.data_read + data.length }, .Data data.length)

/-- Run a sequence of reads with the given `recv` outcomes. -/
def runReads : ReadState → List RecvResult → ReadState × List ReadResult
  | s, [] => (s, [])
  | s, r :: rs =>
      let step := llhlsunix_read s r
      let rest := runReads step.1 rs
      (rest.1, step.2 :: rest.2)

/-- Feed successive successful receives of the given byte chunks to a
freshly opened handle. -/
def runChunks (chunks : List (List Nat)) : ReadState × List ReadResult :=
  runReads initState (chunks.map RecvResult.bytes)

/-- The increment `llhlsunix_read` applies to `data_read`, per result. -/
def dataDelta : ReadResult → Nat
  | .Data n => n
  | _ => 0

/-- The scheme bytes stripped by `av_strstart(filename, "llhls:", &filename)`. -/
def schemeBytes : List Nat := strB "llhls:"

/-- Model of `av_strstart(str, pfx, &ptr)`: advance past `pfx` when `str`
starts with it, else leave `str` unchanged. -/
def av_strstart (pfx input : List Nat) : List Nat :=
  if input.take pfx.length = pfx then input.drop pfx.length else input

/-- Model of `av_strnstr(filename, "?", strlen(filename))`: the index of
the first `?` (byte 63), if any. -/
def findDelim : List Nat → Option Nat
  | [] => none
  | b :: rest => if b = 63 then some 0 else (findDelim rest).map (· + 1)

/-- Model of `av_strlcpy(dst, src, size)` into a zeroed `dst`, returning
the bytes copied: `min(strlen(src), size - 1)` leading bytes of `src`
when `size ≥ 1`, nothing when `size == 0`.  The `size` argument is an
`Int` because the C call sites compute it by pointer/length arithmetic
that can go negative; a negative value wraps to a huge `size_t`, so the
whole of `src` is copied. -/
def av_strlcpy (src : List Nat) (size : Int) : List Nat :=
  if size < 0 then src
  else src.take (size.toNat - 1)

/-- The descriptor parsing of `llhlsunix_open`: strip the `llhls:`
scheme; when a `?` is present at offset `d`, the socket path is
`av_strlcpy(filenamePre, filename + 2, (delimiter - filename) - 2 - 1)`
and the resource id is
`av_strlcpy(s->chunkUri, delimiter + 1, strlen(filename) - strlen(delimiter) - 1)`;
without a `?` the whole remaining string is the socket path and the
resource id stays empty (`chunkUri` was zeroed). -/
def parseDescriptor (filename : List Nat) : List Nat × List Nat :=
  let f := av_strstart schemeBytes filename
  match findDelim f with
  | none => (f, [])
  | some d =>
      (av_strlcpy (f.drop 2) ((d : Int) - 2 - 1),
       av_strlcpy (f.drop (d + 1)) ((f.length : Int) - ((f.length - d : Nat) : Int) - 1))

/-- Observable outcome of `llhlsunix_open`: the `sun_path` written by
`strncpy(..., 90)`, the parsed `chunkUri`, whether the `-61` connect
retry path ran, the request frames passed to `send`, whether the send
was retried, whether the socket descriptor was closed on the fail path,
and the return value. -/
structure OpenResult where
  sunPath : List Nat
  chunkUri : List Nat
  connectRetried : Bool
  frames : List (List Nat)
  sendRetried : Bool
  sendRet : Int
  fdClosed : Bool
  ret : Int

/-- Model of `llhlsunix_open` (sentinel-aware variant).  The OS calls
are oracles: `c1`/`c2` are the results of the first and second
`ff_listen_connect`, `s1`/`s2` of the first and second `send`.  Socket
creation is assumed to succeed.  The code retries the connect exactly
once, only when the first result is exactly `-61`; any negative result
after that closes the descriptor and is returned.  A nonempty
`chunkUri` is sent as `strlen(chunkUri) + 1` bytes (the terminating NUL
included); a send result `<= 0` causes exactly one retry; the send
results do not affect the return value, which is `0` on any connected
path. -/
def llhlsunix_open (filename : List Nat) (c1 c2 s1 s2 : Int) : OpenResult :=
  let parsed := parseDescriptor filename
  let sunPath := parsed.1.take 90
  let uri := parsed.2
  let cret := if c1 = -61 then c2 else c1
  if cret < 0 then
    { sunPath := sunPath, chunkUri := uri, connectRetried := decide (c1 = -61),
      frames := [], sendRetried := false, sendRet := 0, fdClosed := true, ret := cret }
  else if uri = [] then
    { sunPath := sunPath, chunkUri := uri, connectRetried := decide (c1 = -61),
      frames := [], sendRetried := false, sendRet := 0, fdClosed := false, ret := 0 }
  else
    let frame := uri ++ [0]
    { sunPath := sunPath, chunkUri := uri, connectRetried := decide (c1 = -61),
      frames := if s1 ≤ 0 then [frame, frame] else [frame],
      sendRetried := decide (s1 ≤ 0),
      sendRet := if s1 ≤ 0 then s2 else s1,
      fdClosed := false, ret := 0 }

/-- The two receives of the cross-read sentinel scenario: the stream
`"abc"` followed by the sentinel, split 28 bytes into the sentinel. -/
def splitFeedA : List Nat := strB "abc" ++ magicError.take 28

/-- Second receive of the cross-read sentinel scenario. -/
def splitFeedB : List Nat := magicError.drop 28

/-- First receive of the false-positive scenario: 28 filler bytes
(`x` = 120) followed by the last 28 sentinel bytes. -/
def falsePositiveA : List Nat := List.replicate 28 120 ++ magicError.drop 28

/-- Second receive of the false-positive scenario: the first 28
sentinel bytes. -/
def falsePositiveB : List Nat := magicError.take 28

/-- A window whose content is the sentinel followed by zero padding. -/
def magicWindow : List Nat := magicError ++ List.replicate (CAP - magicError.length) 0

/-- A 120-byte socket path (120 times `a` = 97), over both the 90-byte
`strncpy` bound and the 104/108-byte platform `sun_path` capacity. -/
def longPath : List Nat := List.replicate 120 97

/-- The window update never changes the 1024-byte length of
`chunkLastbytes`: `memcpy` writes `min(n, 1024)` bytes at offset 0. -/
theorem windowUpdate_length (win newb : List Nat) (h : win.length = CAP) :
    (windowUpdate win newb).length = CAP := by
  simp only [windowUpdate, List.length_append, List.length_take, List.length_drop]
  omega

/-- One `llhlsunix_read` call preserves the window length. -/
theorem read_window_length (s : ReadState) (r : RecvResult) (h : s.window.length = CAP) :
    ((llhlsunix_read s r).1.window).length = CAP := by
  cases r with
  | wouldBlock => exact h
  | err code => exact h
  | bytes data =>
      simp only [llhlsunix_read]
      split
      · have hw := windowUpdate_length s.window data h
        split
        · exact hw
        · split
          · exact hw
          · exact hw
      · split
        · exact h
        · split
          · exact h
          · exact h

/-- Any run of reads preserves the window length. -/
theorem runReads_window_length (rs : List RecvResult) :
    ∀ s : ReadState, s.window.length = CAP → ((runReads s rs).1.window).length = CAP := by
  induction rs with
  | nil => intro s h; exact h
  | cons r rs ih =>
      intro s h
      simp only [runReads]
      exact ih _ (read_window_length s r h)

/-- C9: for every sequence of read calls with arbitrary receive results,
the `chunkLastbytes` trailing window keeps exactly its fixed 1024-byte
capacity: every update writes at most `CAP` bytes, entirely within the
buffer, regardless of how many bytes the stream delivers. -/
theorem C9_window_capacity (rs : List RecvResult) :
    ((runReads initState rs).1.window).length = CAP :=
  runReads_window_length rs initState (by simp [initState])

/-- C4: a read returns `AVERROR_EOF` if and only if the receive returned
zero bytes and the sentinel is absent from the trailing window at that
moment; with zero bytes received but the sentinel present, the read
returns `AVERROR_INVALIDDATA` instead. -/
theorem C4_eof_iff (s : ReadState) (r : RecvResult) :
    ((llhlsunix_read s r).2 = .EndOfStream ↔
      r = .bytes [] ∧ containsMagic s.window = false) ∧
    (r = .bytes [] → containsMagic s.window = true →
      (llhlsunix_read s r).2 = .SentinelError) := by
  cases r with
  | wouldBlock => simp [llhlsunix_read]
  | err code => simp [llhlsunix_read]
  | bytes data =>
      cases data with
      | nil =>
          by_cases h : containsMagic s.window
          · simp [llhlsunix_read, h]
          · simp [llhlsunix_read, h]
      | cons b bs =>
          by_cases h : containsMagic (windowUpdate s.window (b :: bs))
          · simp [llhlsunix_read, h]
          · simp [llhlsunix_read, h]

/-- Witness for C4 at concrete inputs: a zero-byte receive on a clean
window yields `EndOfStream`; on a window holding the sentinel it yields
`SentinelError`. -/
theorem C4_eof_iff_witness :
    containsMagic magicWindow = true ∧ containsMagic initState.window = false ∧
    (llhlsunix_read ⟨magicWindow, 0⟩ (.bytes [])).2 = .SentinelError ∧
    (llhlsunix_read initState (.bytes [])).2 = .EndOfStream := by
  refine ⟨by decide, by decide, ?_, ?_⟩
  · exact (C4_eof_iff ⟨magicWindow, 0⟩ (.bytes [])).2 rfl (by decide)
  · exact ((C4_eof_iff initState (.bytes [])).1).mpr ⟨rfl, by decide⟩

/-- C10: `data_read` grows by exactly `n` on a read returning `Data n`
and is unchanged on every other outcome (`WouldBlock`, `HardError`,
`SentinelError`, `EndOfStream`); `Data 0` never occurs, and a read that
received bytes but reports the sentinel does not count them. -/
theorem C10_data_read_counter (s : ReadState) (r : RecvResult) :
    (llhlsunix_read s r).1.data_read
        = s.data_read + dataDelta (llhlsunix_read s r).2 ∧
    (llhlsunix_read s r).2 ≠ .Data 0 := by
  cases r with
  | wouldBlock => simp [llhlsunix_read, dataDelta]
  | err code => simp [llhlsunix_read, dataDelta]
  | bytes data =>
      cases data with
      | nil =>
          by_cases h : containsMagic s.window <;> simp [llhlsunix_read, h, dataDelta]
      | cons b bs =>
          by_cases h : containsMagic (windowUpdate s.window (b :: bs)) <;>
            simp [llhlsunix_read, h, dataDelta]

/-- Witness for C10 at a concrete input: a two-byte receive adds two to
the counter. -/
theorem C10_data_read_counter_witness :
    ((llhlsunix_read initState (.bytes [104, 105])).1.data_read
        = initState.data_read + dataDelta (llhlsunix_read initState (.bytes [104, 105])).2 ∧
     (llhlsunix_read initState (.bytes [104, 105])).2 ≠ .Data 0) ∧
    (llhlsunix_read initState (.bytes [104, 105])).1.data_read = 2 :=
  ⟨C10_data_read_counter initState (.bytes [104, 105]), by decide⟩

/-- C1 fails on the code: the stream `"abc" ++ sentinel` does contain
the sentinel, yet when it is delivered split 28 bytes into the 56-byte
sentinel, the first read returns `Data 31`, the second `Data 28`, and no
read ever returns `SentinelError` — the front-overwriting `memcpy`
destroys the alignment between the carried-over half and the new half. -/
theorem C1_split_sentinel_missed :
    List.IsInfix magicError (splitFeedA ++ splitFeedB) ∧
    (runChunks [splitFeedA, splitFeedB]).2 = [.Data 31, .Data 28] ∧
    ReadResult.SentinelError ∉ (runChunks [splitFeedA, splitFeedB]).2 := by
  decide

/-- C2 fails on the code: after receives `"AB"` then `"C"` the window
is `C, B, 0, …` — the new byte overwrites the front of the buffer and
the stale `B` survives behind it — not the tail `A, B, C` of the
concatenation under either alignment. -/
theorem C2_window_not_concat_tail :
    (runChunks [[65, 66], [67]]).1.window = 67 :: 66 :: List.replicate 1022 0 ∧
    (runChunks [[65, 66], [67]]).1.window ≠ 65 :: 66 :: 67 :: List.replicate 1021 0 ∧
    (runChunks [[65, 66], [67]]).1.window ≠ List.replicate 1021 0 ++ [65, 66, 67] := by
  decide

/-- C3 fails on the code: the stream made of 28 filler bytes, the last
28 sentinel bytes, then the first 28 sentinel bytes never contains the
sentinel, yet delivered as those two receives the second read returns
`SentinelError`: the front-overwriting `memcpy` glues the two sentinel
halves together in the window in the wrong order. -/
theorem C3_sentinel_false_positive :
    ¬ List.IsInfix magicError (falsePositiveA ++ falsePositiveB) ∧
    (runChunks [falsePositiveA, falsePositiveB]).2 = [.Data 56, .SentinelError] := by
  decide

/-- C5: when the first `ff_listen_connect` fails with exactly `-61`
(the connection-refused class the code retries on), open backs off and
retries once: a non-negative second result yields a connected handle
(return 0, descriptor kept); a negative second result is terminal — the
descriptor is closed and the negative error is returned. -/
theorem C5_connect_retry (filename : List Nat) (c1 c2 s1 s2 : Int) (h : c1 = -61) :
    (llhlsunix_open filename c1 c2 s1 s2).connectRetried = true ∧
    (0 ≤ c2 →
      (llhlsunix_open filename c1 c2 s1 s2).ret = 0 ∧
      (llhlsunix_open filename c1 c2 s1 s2).fdClosed = false) ∧
    (c2 < 0 →
      (llhlsunix_open filename c1 c2 s1 s2).ret = c2 ∧
      (llhlsunix_open filename c1 c2 s1 s2).fdClosed = true) := by
  subst h
  refine ⟨?_, fun h2 => ?_, fun h2 => ?_⟩ <;>
    · simp only [llhlsunix_open, if_pos rfl]
      split_ifs <;> simp_all <;> omega

/-- Witness for C5 at concrete inputs: first connect `-61`, second `0`
connects; first `-61`, second `-7` closes the descriptor and returns
`-7`. -/
theorem C5_connect_retry_witness :
    ((-61 : Int) = -61) ∧
    ((llhlsunix_open (strB "llhls:a") (-61) 0 1 1).ret = 0 ∧
     (llhlsunix_open (strB "llhls:a") (-61) 0 1 1).fdClosed = false) ∧
    ((llhlsunix_open (strB "llhls:a") (-61) (-7) 1 1).ret = -7 ∧
     (llhlsunix_open (strB "llhls:a") (-61) (-7) 1 1).fdClosed = true) :=
  ⟨rfl,
   (C5_connect_retry (strB "llhls:a") (-61) 0 1 1 rfl).2.1 (by decide),
   (C5_connect_retry (strB "llhls:a") (-61) (-7) 1 1 rfl).2.2 (by decide)⟩

/-- C7 fails on the code: open never returns an address error.  The
empty path proceeds to connect (return 0 with a successful connect),
and a 120-byte path — beyond the 104/108-byte platform capacity — is
silently truncated to its first 90 bytes by `strncpy(..., 90)` and open
still succeeds. -/
theorem C7_no_address_error :
    (llhlsunix_open (schemeBytes ++ longPath) 0 0 1 1).ret = 0 ∧
    (llhlsunix_open (schemeBytes ++ longPath) 0 0 1 1).sunPath = List.replicate 90 97 ∧
    longPath.length = 120 ∧
    (llhlsunix_open schemeBytes 0 0 1 1).ret = 0 ∧
    (llhlsunix_open schemeBytes 0 0 1 1).sunPath = [] := by
  decide

/-- C7 amended: open performs no socket-path validation at all — the
computed path is truncated to its first 90 bytes, and with a successful
connect, open returns 0 whatever the path (empty or over-length). -/
theorem C7_silent_truncation (filename : List Nat) (c1 c2 s1 s2 : Int) :
    (llhlsunix_open filename c1 c2 s1 s2).sunPath = (parseDescriptor filename).1.take 90 ∧
    (0 ≤ c1 → (llhlsunix_open filename c1 c2 s1 s2).ret = 0) := by
  constructor
  · simp only [llhlsunix_open]
    split_ifs <;> rfl
  · intro h
    have h61 : ¬ c1 = -61 := by omega
    have hlt : ¬ c1 < 0 := by omega
    simp only [llhlsunix_open, if_neg h61, if_neg hlt]
    split_ifs <;> rfl

/-- Witness for C7 amended at a concrete input: the 120-byte path is
truncated to 90 bytes and open returns 0. -/
theorem C7_silent_truncation_witness :
    ((0 : Int) ≤ 0) ∧
    (llhlsunix_open (schemeBytes ++ longPath) 0 0 1 1).sunPath
      = (parseDescriptor (schemeBytes ++ longPath)).1.take 90 ∧
    (llhlsunix_open (schemeBytes ++ longPath) 0 0 1 1).ret = 0 :=
  ⟨le_refl 0,
   (C7_silent_truncation (schemeBytes ++ longPath) 0 0 1 1).1,
   (C7_silent_truncation (schemeBytes ++ longPath) 0 0 1 1).2 (le_refl 0)⟩

/-- C8: after a successful connect, a nonempty parsed resource id is
sent as exactly one frame of the id bytes plus one NUL byte; a first
send result `<= 0` causes exactly one retry with the same frame; the
send results never affect the return value, which is 0; an empty
resource id sends nothing. -/
theorem C8_request_frame (filename : List Nat) (c1 c2 s1 s2 : Int) (h : 0 ≤ c1) :
    (llhlsunix_open filename c1 c2 s1 s2).ret = 0 ∧
    (llhlsunix_open filename c1 c2 s1 s2).frames =
      (if (parseDescriptor filename).2 = [] then []
       else if s1 ≤ 0 then
         [(parseDescriptor filename).2 ++ [0], (parseDescriptor filename).2 ++ [0]]
       else [(parseDescriptor filename).2 ++ [0]]) := by
  have h61 : ¬ c1 = -61 := by omega
  have hlt : ¬ c1 < 0 := by omega
  simp only [llhlsunix_open, if_neg h61, if_neg hlt]
  split_ifs <;> simp_all

/-- Witness for C8 at a concrete input: resource id `"chunk42"`, both
sends failing (`-1`): the NUL-terminated frame is sent twice and open
still returns 0. -/
theorem C8_request_frame_witness :
    ((0 : Int) ≤ 0) ∧
    (llhlsunix_open (strB "llhls:/tmp/sock?chunk42") 0 0 (-1) (-1)).ret = 0 ∧
    (llhlsunix_open (strB "llhls:/tmp/sock?chunk42") 0 0 (-1) (-1)).frames
      = [strB "chunk42" ++ [0], strB "chunk42" ++ [0]] := by
  refine ⟨le_refl 0,
    (C8_request_frame (strB "llhls:/tmp/sock?chunk42") 0 0 (-1) (-1) (le_refl 0)).1, ?_⟩
  rw [(C8_request_frame (strB "llhls:/tmp/sock?chunk42") 0 0 (-1) (-1) (le_refl 0)).2]
  decide

/-- Stripping a prefix that is literally there. -/
theorem av_strstart_append (pfx rest : List Nat) :
    av_strstart pfx (pfx ++ rest) = rest := by
  simp [av_strstart, List.take_left, List.drop_left]

/-- The first `?` of `pre ++ 63 :: post` sits at index `pre.length`
when `pre` is `?`-free. -/
theorem findDelim_append (pre post : List Nat) (h : 63 ∉ pre) :
    findDelim (pre ++ 63 :: post) = some pre.length := by
  induction pre with
  | nil => simp [findDelim]
  | cons a as ih =>
      have ha : a ≠ 63 := fun e => h (by simp [e])
      have has : 63 ∉ as := fun m => h (List.mem_cons_of_mem _ m)
      simp [findDelim, ha, ih has]

/-- The path copy `av_strlcpy(filenamePre, filename + 2, d - 2 - 1)`
keeps the `d - 4` bytes at indices `2 .. d - 2` of the part before the
`?` at index `d`: the two leading bytes and the two bytes just before
the `?` are lost. -/
theorem strlcpy_split_path (pre post : List Nat) (h3 : 3 ≤ pre.length) :
    av_strlcpy ((pre ++ 63 :: post).drop 2) ((pre.length : Int) - 2 - 1)
      = (pre.drop 2).take (pre.length - 4) := by
  have hns : ¬ ((pre.length : Int) - 2 - 1 < 0) := by omega
  have h20 : 2 - pre.length = 0 := by omega
  rw [av_strlcpy, if_neg hns, List.drop_append_eq_append_drop, h20, List.drop_zero]
  have htn : ((pre.length : Int) - 2 - 1).toNat - 1 = pre.length - 4 := by omega
  rw [htn, List.take_append_eq_append_take]
  have hz : pre.length - 4 - (pre.drop 2).length = 0 := by
    simp only [List.length_drop]
    omega
  rw [hz, List.take_zero, List.append_nil]

/-- The resource-id copy
`av_strlcpy(s->chunkUri, delimiter + 1, strlen(filename) - strlen(delimiter) - 1)`
keeps only the first `d - 2` bytes after the `?` at index `d`. -/
theorem strlcpy_split_uri (pre post : List Nat) (h3 : 3 ≤ pre.length) :
    av_strlcpy ((pre ++ 63 :: post).drop (pre.length + 1))
        (((pre ++ 63 :: post).length : Int)
          - (((pre ++ 63 :: post).length - pre.length : Nat) : Int) - 1)
      = post.take (pre.length - 2) := by
  have hlen : (pre ++ 63 :: post).length = pre.length + 1 + post.length := by
    simp only [List.length_append, List.length_cons]
    omega
  rw [hlen]
  have hsub : pre.length + 1 + post.length - pre.length = 1 + post.length := by omega
  rw [hsub]
  have hdrop : (pre ++ 63 :: post).drop (pre.length + 1) = post := by
    have h1 : pre.length + 1 = (pre ++ [63]).length := by simp
    have h2 : pre ++ 63 :: post = (pre ++ [63]) ++ post := by simp
    rw [h2, h1, List.drop_left]
  rw [hdrop]
  have hns : ¬ (((pre.length + 1 + post.length : Nat) : Int)
      - ((1 + post.length : Nat) : Int) - 1 < 0) := by omega
  rw [av_strlcpy, if_neg hns]
  have htn : (((pre.length + 1 + post.length : Nat) : Int)
      - ((1 + post.length : Nat) : Int) - 1).toNat - 1 = pre.length - 2 := by omega
  rw [htn]

/-- C6 fails on the code: the descriptor `"llhls:/tmp/sock?chunk42"`
does not yield socketPath `"/tmp/sock"` — the copy bound
`(delimiter - filename) - 2 - 1` drops the two leading bytes and the
two bytes before the `?`, leaving `"mp/so"`. -/
theorem C6_scenario_counterexample :
    parseDescriptor (strB "llhls:/tmp/sock?chunk42") ≠ (strB "/tmp/sock", strB "chunk42") ∧
    parseDescriptor (strB "llhls:/tmp/sock?chunk42") = (strB "mp/so", strB "chunk42") := by
  decide

/-- C6 amended: with a `?` at index `d ≥ 3` of the descriptor tail, the
socket path is the `d - 4` bytes at indices `2 .. d - 2` (two leading
bytes and the two bytes preceding the `?` are dropped), and the
resource id is the first `d - 2` bytes after the `?` (verbatim only
when the tail is no longer than `d - 2`). -/
theorem C6_parse_amended (pre post : List Nat) (hq : 63 ∉ pre) (h3 : 3 ≤ pre.length) :
    parseDescriptor (schemeBytes ++ (pre ++ 63 :: post)) =
      ((pre.drop 2).take (pre.length - 4), post.take (pre.length - 2)) := by
  simp only [parseDescriptor, av_strstart_append, findDelim_append pre post hq]
  rw [Prod.mk.injEq]
  exact ⟨strlcpy_split_path pre post h3, strlcpy_split_uri pre post h3⟩

/-- Witness for C6 amended at the scenario input: `"/tmp/sock"` before
the `?`, `"chunk42"` after, giving `("mp/so", "chunk42")`. -/
theorem C6_parse_amended_witness :
    (63 ∉ strB "/tmp/sock") ∧ 3 ≤ (strB "/tmp/sock").length ∧
    parseDescriptor (schemeBytes ++ (strB "/tmp/sock" ++ 63 :: strB "chunk42")) =
      (strB "mp/so", strB "chunk42") := by
  refine ⟨by decide, by decide, ?_⟩
  rw [C6_parse_amended (strB "/tmp/sock") (strB "chunk42") (by decide) (by decide)]
  decide

end LLHLSUnix
